import Mathlib

/-!
Shallow embedding of the durability and failover core of the car-seeder
producer: circuit breaker, state manager, write handler routing, durable
(SQLite) store operations, recovery manager probes, and the metrics
failover-session tracker.  Pure functions model the methods of the
services; time (`Date.now()`) is passed explicitly; I/O effects that the
claims mention (enqueue attempts, probe attempts, emitted metrics events)
are returned as explicit outcome fields.
-/

/-- The three circuit-breaker states (`circuit-breaker-state.enum`). -/
inductive CircuitBreakerState
  | CLOSED
  | OPEN
  | HALF_OPEN
deriving DecidableEq, Repr

/-- The producer mode (`state.enum`): `SeederState.REDIS_MODE` or
`SeederState.SQLITE_MODE`. -/
inductive SeederState
  | REDIS_MODE
  | SQLITE_MODE
deriving DecidableEq, Repr

/-- Durable-record status (`recovery-status.enum`): pending, recovering, sent. -/
inductive RecoveryStatus
  | PENDING
  | RECOVERING
  | SENT
deriving DecidableEq, Repr

/-- The mutable fields of `CircuitBreakerService`: current state, failure
count, the configured threshold, and whether the one-shot cooldown timer is
armed (`cooldownTimer !== null`). -/
structure CircuitBreaker where
  state : CircuitBreakerState
  failureCount : Nat
  failureThreshold : Nat
  cooldownArmed : Bool
deriving DecidableEq, Repr

namespace CircuitBreaker

/-- `open()`: set state to OPEN and arm the cooldown timer
(`startCooldown`, which first clears any previous timer). -/
def openBreaker (cb : CircuitBreaker) : CircuitBreaker :=
  { cb with state := .OPEN, cooldownArmed := true }

/-- `recordSuccess()`: in HALF_OPEN move to CLOSED, reset the count and
clear the timer; in CLOSED reset the count; in OPEN do nothing. -/
def recordSuccess (cb : CircuitBreaker) : CircuitBreaker :=
  match cb.state with
  | .HALF_OPEN => { cb with state := .CLOSED, failureCount := 0, cooldownArmed := false }
  | .CLOSED => { cb with failureCount := 0 }
  | .OPEN => cb

/-- `recordFailure()`: always increment `failureCount`; in CLOSED, move to
OPEN when the incremented count reaches the threshold; in HALF_OPEN, move
back to OPEN; in OPEN, only the count changes. -/
def recordFailure (cb : CircuitBreaker) : CircuitBreaker :=
  let cb' := { cb with failureCount := cb.failureCount + 1 }
  match cb.state with
  | .CLOSED =>
      if cb'.failureCount ≥ cb'.failureThreshold then cb'.openBreaker else cb'
  | .HALF_OPEN => cb'.openBreaker
  | .OPEN => cb'

/-- `transitionToHalfOpen()`: clear the timer, move to HALF_OPEN, reset the
count. -/
def transitionToHalfOpen (cb : CircuitBreaker) : CircuitBreaker :=
  { cb with state := .HALF_OPEN, failureCount := 0, cooldownArmed := false }

/-- `reset()`: back to CLOSED with count 0, timer cleared. -/
def resetBreaker (cb : CircuitBreaker) : CircuitBreaker :=
  { cb with state := .CLOSED, failureCount := 0, cooldownArmed := false }

/-- `isOpen()`. -/
def isOpen (cb : CircuitBreaker) : Bool :=
  cb.state = CircuitBreakerState.OPEN

/-- `isHalfOpen()`. -/
def isHalfOpen (cb : CircuitBreaker) : Bool :=
  cb.state = CircuitBreakerState.HALF_OPEN

/-- One call of either `recordSuccess` or `recordFailure`. -/
inductive Call
  | success
  | failure
deriving DecidableEq, Repr

/-- Apply one call. -/
def applyCall (cb : CircuitBreaker) : Call → CircuitBreaker
  | .success => cb.recordSuccess
  | .failure => cb.recordFailure

/-- Apply a sequence of calls, first element first. -/
def applyCalls (cb : CircuitBreaker) : List Call → CircuitBreaker
  | [] => cb
  | c :: cs => applyCalls (cb.applyCall c) cs

end CircuitBreaker

/-- The car payload (`car-seeder.interface`): normalized make and model,
year, price, location.  `REAL` prices are modelled exactly as rationals;
no claim computes with them. -/
structure Car where
  normalizedMake : String
  normalizedModel : String
  year : Int
  price : Rat
  location : String
deriving DecidableEq, Repr

/-- A row of the `pending_cars` table (`PendingCar` in the SQLite
manager). Millisecond epochs are modelled as `Int`. -/
structure PendingCar where
  id : String
  normalized_make : String
  normalized_model : String
  year : Int
  price : Rat
  location : String
  created_at : Int
  status : RecoveryStatus
  retry_count : Nat
  recovery_instance : Option String
  recovery_started_at : Option Int
  redis_job_id : Option String
deriving DecidableEq, Repr

namespace SqliteManager

/-- The id-generation rule of `flushBuffer`:
`` `${instanceId}-${baseTime}-${i}-${rand}` ``. -/
def mkId (instanceId : String) (baseTime : Int) (i : Nat) (rand : String) : String :=
  instanceId ++ "-" ++ toString baseTime ++ "-" ++ toString i ++ "-" ++ rand

/-- The row inserted for the `i`-th buffered car of a flush batch:
`created_at = baseTime + i`, status `'pending'`, `retry_count 0`; the
recovery columns and `redis_job_id` take their column defaults (NULL). -/
def insertRow (instanceId : String) (baseTime : Int) (i : Nat) (rand : String)
    (car : Car) : PendingCar :=
  { id := mkId instanceId baseTime i rand
    normalized_make := car.normalizedMake
    normalized_model := car.normalizedModel
    year := car.year
    price := car.price
    location := car.location
    created_at := baseTime + i
    status := .PENDING
    retry_count := 0
    recovery_instance := none
    recovery_started_at := none
    redis_job_id := none }

/-- `flushBuffer` commits the buffered cars in one transaction, appending
one `insertRow` per car (the `i`-th with random suffix `rands.get? i`,
empty string when absent). -/
def flushBuffer (db : List PendingCar) (instanceId : String) (baseTime : Int)
    (cars : List Car) (rands : List String) : List PendingCar :=
  db ++ cars.mapIdx (fun i car =>
    insertRow instanceId baseTime i ((rands.get? i).getD "") car)

/-- Ordering used by `ORDER BY created_at ASC`. -/
def createdLE (a b : PendingCar) : Prop :=
  a.created_at ≤ b.created_at

instance : DecidableRel createdLE := fun a b =>
  inferInstanceAs (Decidable (a.created_at ≤ b.created_at))

instance : IsTotal PendingCar createdLE :=
  ⟨fun a b => Int.le_total a.created_at b.created_at⟩

instance : IsTrans PendingCar createdLE :=
  ⟨fun _ _ _ h h' => le_trans h h'⟩

/-- The id set of the CTE `selected_cars`: ids of up to `limit` rows with
`status = 'pending'`, ordered by `created_at` ascending. -/
def selectPendingIds (db : List PendingCar) (limit : Nat) : List String :=
  (((db.filter (fun r => r.status = .PENDING)).insertionSort createdLE).take limit).map
    (fun r => r.id)

/-- The row update applied by `getAndMarkPendingCars`:
`status = 'recovering'`, `recovery_instance = instanceId`,
`recovery_started_at = now`. -/
def claimRow (instanceId : String) (now : Int) (r : PendingCar) : PendingCar :=
  { r with status := .RECOVERING
           recovery_instance := some instanceId
           recovery_started_at := some now }

/-- `getAndMarkPendingCars(limit, instanceId)`: inside one immediate
transaction, `UPDATE ... WHERE id IN selected_cars AND status = 'pending'
RETURNING *`.  Returns the claimed rows (post-update) and the new table
state. -/
def getAndMarkPendingCars (db : List PendingCar) (limit : Nat)
    (instanceId : String) (now : Int) : List PendingCar × List PendingCar :=
  let sel := selectPendingIds db limit
  ( db.filterMap (fun r =>
      if r.id ∈ sel ∧ r.status = .PENDING then some (claimRow instanceId now r)
      else none),
    db.map (fun r =>
      if r.id ∈ sel ∧ r.status = .PENDING then claimRow instanceId now r
      else r) )

/-- One `UPDATE pending_cars SET status='sent', redis_job_id=? WHERE id=?`
statement of `markCarsAsSent` (no status guard in the source). -/
def setSent (db : List PendingCar) (carId : String) (jobId : Option String) :
    List PendingCar :=
  db.map (fun r =>
    if r.id = carId then { r with status := .SENT, redis_job_id := jobId } else r)

/-- `redisJobIds[i] || null`: a missing or empty job id is stored as NULL. -/
def headJob : List String → Option String
  | [] => none
  | j :: _ => if j = "" then none else some j

/-- `markCarsAsSent(carIds, redisJobIds)`: per-index sequential updates,
zipping ids with job ids. -/
def markCarsAsSent (db : List PendingCar) : List String → List String → List PendingCar
  | [], _ => db
  | cid :: cids, jobs => markCarsAsSent (setSent db cid (headJob jobs)) cids jobs.tail

/-- One `UPDATE pending_cars SET status='pending', retry_count=retry_count+1
WHERE id=?` statement of `markCarsAsPending` (no status guard in the
source; the recovery columns are left untouched). -/
def setPendingRetry (db : List PendingCar) (carId : String) : List PendingCar :=
  db.map (fun r =>
    if r.id = carId then { r with status := .PENDING, retry_count := r.retry_count + 1 }
    else r)

/-- `markCarsAsPending(carIds)`: sequential per-id updates. -/
def markCarsAsPending (db : List PendingCar) (carIds : List String) : List PendingCar :=
  carIds.foldl setPendingRetry db

/-- `getPendingCount()`. -/
def getPendingCount (db : List PendingCar) : Nat :=
  (db.filter (fun r => r.status = .PENDING)).length

/-- The `WHERE status='recovering' AND recovery_started_at < cutoff`
condition of `cleanupStaleRecoveries`; a NULL `recovery_started_at` never
compares below the cutoff (SQL three-valued logic). -/
def isStale (cutoff : Int) (r : PendingCar) : Bool :=
  match r.status, r.recovery_started_at with
  | .RECOVERING, some t => decide (t < cutoff)
  | _, _ => false

/-- `cleanupStaleRecoveries(maxAgeMs)`: one update reverting every stale
row to `'pending'` with the recovery columns cleared; returns the new
table and the number of changed rows. -/
def cleanupStaleRecoveries (db : List PendingCar) (now maxAgeMs : Int) :
    List PendingCar × Nat :=
  let cutoff := now - maxAgeMs
  ( db.map (fun r =>
      if isStale cutoff r then
        { r with status := .PENDING, recovery_instance := none,
                 recovery_started_at := none }
      else r),
    (db.filter (isStale cutoff)).length )

end SqliteManager

/-- The mutable fields of one `FailoverSession`. -/
structure FailoverSession where
  sessionId : String
  masterFailureDetectedAt : Option Int
  sentinelPromotionDetectedAt : Option Int
  stateTransitionToSqliteAt : Option Int
  stateTransitionToRedisAt : Option Int
  recoveryStartedAt : Option Int
  recoveryCompletedAt : Option Int
  sqliteFallbackCount : Nat
  isActive : Bool
deriving DecidableEq, Repr

/-- The mutable fields of `MetricsService` (the log stream carries the
emitted events; operations that emit a datum a claim mentions return it
explicitly). -/
structure MetricsState where
  currentSession : Option FailoverSession
  sqliteFallbackCount : Nat
  totalFailoverSessions : Nat
deriving DecidableEq, Repr

namespace MetricsState

/-- The metrics state at process start. -/
def init : MetricsState :=
  { currentSession := none, sqliteFallbackCount := 0, totalFailoverSessions := 0 }

/-- `` `failover-${n}-${now}` ``. -/
def mkSessionId (n : Nat) (now : Int) : String :=
  "failover-" ++ toString n ++ "-" ++ toString now

/-- `!this.currentSession || !this.currentSession.isActive`. -/
def noActiveSession (m : MetricsState) : Bool :=
  match m.currentSession with
  | none => true
  | some s => !s.isActive

/-- `recordMasterFailure(errorMessage)`: open a fresh session (resetting
the process-wide fallback counter) when none is active, else stamp
`masterFailureDetectedAt` on the current one. -/
def recordMasterFailure (m : MetricsState) (now : Int) : MetricsState :=
  if m.noActiveSession then
    let n := m.totalFailoverSessions + 1
    { currentSession := some
        { sessionId := mkSessionId n now
          masterFailureDetectedAt := some now
          sentinelPromotionDetectedAt := none
          stateTransitionToSqliteAt := none
          stateTransitionToRedisAt := none
          recoveryStartedAt := none
          recoveryCompletedAt := none
          sqliteFallbackCount := 0
          isActive := true }
      sqliteFallbackCount := 0
      totalFailoverSessions := n }
  else
    { m with currentSession :=
        m.currentSession.map (fun s => { s with masterFailureDetectedAt := some now }) }

/-- `recordSentinelPromotion()`: create a late (incomplete) session when
none is active, copying the process-wide counter; then stamp
`sentinelPromotionDetectedAt`. -/
def recordSentinelPromotion (m : MetricsState) (now : Int) : MetricsState :=
  let m' :=
    if m.noActiveSession then
      let n := m.totalFailoverSessions + 1
      { m with
        currentSession := some
          { sessionId := mkSessionId n now
            masterFailureDetectedAt := none
            sentinelPromotionDetectedAt := some now
            stateTransitionToSqliteAt := none
            stateTransitionToRedisAt := none
            recoveryStartedAt := none
            recoveryCompletedAt := none
            sqliteFallbackCount := m.sqliteFallbackCount
            isActive := true }
        totalFailoverSessions := n }
    else m
  { m' with currentSession :=
      m'.currentSession.map (fun s => { s with sentinelPromotionDetectedAt := some now }) }

/-- `recordStateTransitionToSqlite(previousState)`: open a fresh session
(resetting the counter) when none is active, else stamp
`stateTransitionToSqliteAt`. -/
def recordStateTransitionToSqlite (m : MetricsState) (now : Int) : MetricsState :=
  if m.noActiveSession then
    let n := m.totalFailoverSessions + 1
    { currentSession := some
        { sessionId := mkSessionId n now
          masterFailureDetectedAt := some now
          sentinelPromotionDetectedAt := none
          stateTransitionToSqliteAt := some now
          stateTransitionToRedisAt := none
          recoveryStartedAt := none
          recoveryCompletedAt := none
          sqliteFallbackCount := 0
          isActive := true }
      sqliteFallbackCount := 0
      totalFailoverSessions := n }
  else
    { m with currentSession :=
        m.currentSession.map (fun s => { s with stateTransitionToSqliteAt := some now }) }

/-- `recordStateTransitionToRedis(previousState)`: create a late session
when none is active; stamp `stateTransitionToRedisAt`; emit the
`STATE_TRANSITION_TO_REDIS` event whose details report the session's
`sqliteFallbackCount` (returned here); then deactivate and drop the
session.  The process-wide counter is left as is. -/
def recordStateTransitionToRedis (m : MetricsState) (now : Int) :
    MetricsState × Nat :=
  let m' :=
    if m.noActiveSession then
      let n := m.totalFailoverSessions + 1
      { m with
        currentSession := some
          { sessionId := mkSessionId n now
            masterFailureDetectedAt := none
            sentinelPromotionDetectedAt := none
            stateTransitionToSqliteAt := none
            stateTransitionToRedisAt := some now
            recoveryStartedAt := none
            recoveryCompletedAt := none
            sqliteFallbackCount := m.sqliteFallbackCount
            isActive := true }
        totalFailoverSessions := n }
    else m
  let reported :=
    match m'.currentSession with
    | some s => s.sqliteFallbackCount
    | none => 0
  ( { m' with currentSession := none }, reported )

/-- `incrementSqliteFallbackCount()`: bump the process-wide counter and,
when a session object exists, copy the new value into it. -/
def incrementSqliteFallbackCount (m : MetricsState) : MetricsState :=
  let c := m.sqliteFallbackCount + 1
  { m with
    sqliteFallbackCount := c
    currentSession := m.currentSession.map (fun s => { s with sqliteFallbackCount := c }) }

/-- `getSqliteFallbackCount()`. -/
def getSqliteFallbackCount (m : MetricsState) : Nat :=
  m.sqliteFallbackCount

/-- `recordRecoveryStarted()`: no-op without an active session. -/
def recordRecoveryStarted (m : MetricsState) (now : Int) : MetricsState :=
  if m.noActiveSession then m
  else
    { m with currentSession :=
        m.currentSession.map (fun s => { s with recoveryStartedAt := some now }) }

/-- `recordRecoveryCompleted(entriesRecovered, entriesFailed?)`: no-op
without an active session. -/
def recordRecoveryCompleted (m : MetricsState) (now : Int) : MetricsState :=
  if m.noActiveSession then m
  else
    { m with currentSession :=
        m.currentSession.map (fun s => { s with recoveryCompletedAt := some now }) }

/-- The public recording operations of `MetricsService`. -/
inductive MetricsCall
  | masterFailure (now : Int)
  | sentinelPromotion (now : Int)
  | toSqlite (now : Int)
  | toRedis (now : Int)
  | incrementFallback
  | recoveryStarted (now : Int)
  | recoveryCompleted (now : Int)
deriving DecidableEq, Repr

/-- Apply one metrics operation (discarding the emitted report). -/
def applyMetricsCall (m : MetricsState) : MetricsCall → MetricsState
  | .masterFailure now => m.recordMasterFailure now
  | .sentinelPromotion now => m.recordSentinelPromotion now
  | .toSqlite now => m.recordStateTransitionToSqlite now
  | .toRedis now => (m.recordStateTransitionToRedis now).1
  | .incrementFallback => m.incrementSqliteFallbackCount
  | .recoveryStarted now => m.recordRecoveryStarted now
  | .recoveryCompleted now => m.recordRecoveryCompleted now

end MetricsState

/-- Outcome of one `queue.add('car', …)` attempt: a returned job, or a
thrown error already run through `isRedisConnectionError` (the classifier
inspects code, message, stack and one wrapped cause; here its verdict is
carried as `isRedisError`). -/
inductive EnqueueResult
  | success (jobId : Option String)
  | failure (isRedisError : Bool)
deriving DecidableEq, Repr

/-- Everything `writeCar` / `writeToRedis` touches or does for one record:
final breaker, seeder state and metrics state, whether `queue.add` was
reached, whether the record went to `writeToSqlite`, and whether the error
was re-thrown to the caller. -/
structure WriteOutcome where
  breaker : CircuitBreaker
  seeder : SeederState
  metrics : MetricsState
  enqueueAttempted : Bool
  savedToSqlite : Bool
  rethrown : Bool
deriving DecidableEq, Repr

namespace WriteHandler

/-- `writeToRedis(car)`: re-check the breaker (`cb` is the value observed
by this method); if OPEN, switch to SQLITE_MODE and take the durable path.
Otherwise attempt the enqueue.  On success `recordSuccess()` and, when in
SQLITE_MODE, switch back to REDIS_MODE signalling metrics.  On a
transport-classified failure `recordFailure()`; when the breaker is then
OPEN, signal master-failure (first time) and the sqlite transition and
switch state; in every transport-failure case increment the fallback
counter and write the record to SQLite.  Non-transport errors are
re-thrown. -/
def writeToRedis (cb : CircuitBreaker) (st : SeederState) (m : MetricsState)
    (enq : EnqueueResult) (now : Int) : WriteOutcome :=
  if cb.isOpen then
    { breaker := cb, seeder := .SQLITE_MODE, metrics := m,
      enqueueAttempted := false, savedToSqlite := true, rethrown := false }
  else
    match enq with
    | .success _ =>
        let cb' := cb.recordSuccess
        if st = .SQLITE_MODE then
          { breaker := cb', seeder := .REDIS_MODE,
            metrics := (m.recordStateTransitionToRedis now).1,
            enqueueAttempted := true, savedToSqlite := false, rethrown := false }
        else
          { breaker := cb', seeder := st, metrics := m,
            enqueueAttempted := true, savedToSqlite := false, rethrown := false }
    | .failure isRedisError =>
        if isRedisError then
          let cb' := cb.recordFailure
          if cb'.isOpen then
            let m1 := if st = .REDIS_MODE then m.recordMasterFailure now else m
            let m2 := m1.recordStateTransitionToSqlite now
            { breaker := cb', seeder := .SQLITE_MODE,
              metrics := m2.incrementSqliteFallbackCount,
              enqueueAttempted := true, savedToSqlite := true, rethrown := false }
          else
            { breaker := cb', seeder := st,
              metrics := m.incrementSqliteFallbackCount,
              enqueueAttempted := true, savedToSqlite := true, rethrown := false }
        else
          { breaker := cb, seeder := st, metrics := m,
            enqueueAttempted := true, savedToSqlite := false, rethrown := true }

/-- `writeCar(car)`: route on the breaker observed at entry
(`cbAtRouting`) and the seeder state; `writeToRedis` re-reads the breaker
(`cbAtWrite`, equal to `cbAtRouting` unless a concurrent transition raced
in between). -/
def writeCar (cbAtRouting cbAtWrite : CircuitBreaker) (st : SeederState)
    (m : MetricsState) (enq : EnqueueResult) (now : Int) : WriteOutcome :=
  if cbAtRouting.isHalfOpen then
    writeToRedis cbAtWrite st m enq now
  else if st = .REDIS_MODE then
    writeToRedis cbAtWrite st m enq now
  else
    { breaker := cbAtRouting, seeder := st, metrics := m,
      enqueueAttempted := false, savedToSqlite := true, rethrown := false }

end WriteHandler

/-- What `isRedisAvailable()` did and returned: its boolean result,
whether it issued the 2-second-deadline ping, and whether it attempted the
`testRedisWrite()` sentinel-job probe. -/
structure AvailabilityOutcome where
  result : Bool
  pingAttempted : Bool
  probeAttempted : Bool
deriving DecidableEq, Repr

namespace RecoveryManager

/-- `isRedisAvailable()`: false without a client; false when the breaker
is OPEN (no remote operation); otherwise race a ping against a 2 s
timeout — a failure only logs — and then, when a queue is set, return the
result of `testRedisWrite()` (false without a queue). -/
def isRedisAvailable (hasClient hasQueue : Bool) (cb : CircuitBreaker)
    (pingOk testWriteOk : Bool) : AvailabilityOutcome :=
  if !hasClient then
    { result := false, pingAttempted := false, probeAttempted := false }
  else if cb.isOpen then
    { result := false, pingAttempted := false, probeAttempted := false }
  else if hasQueue then
    { result := testWriteOk, pingAttempted := true, probeAttempted := true }
  else
    { result := false, pingAttempted := true, probeAttempted := false }

/-- The `catch` of the drain's batch loop (`recoverPendingEntries`): mark
every id of the just-claimed chunk — sent or not — back to `'pending'`. -/
def revertClaimedOnBatchError (db : List PendingCar)
    (claimed : List PendingCar) : List PendingCar :=
  SqliteManager.markCarsAsPending db (claimed.map (fun c => c.id))

end RecoveryManager

/-- A durable-store mutation, as invoked by the write handler
(`flushBuffer`) and the recovery manager (the other four). -/
inductive StoreOp
  | flushOp (instanceId : String) (baseTime : Int) (cars : List Car) (rands : List String)
  | claimOp (limit : Nat) (instanceId : String) (now : Int)
  | sentOp (carIds : List String) (jobIds : List String)
  | pendOp (carIds : List String)
  | cleanupOp (now maxAgeMs : Int)

/-- Apply one durable-store mutation to the table (returned rows and
counts discarded). -/
def applyStoreOp (db : List PendingCar) : StoreOp → List PendingCar
  | .flushOp inst base cars rands => SqliteManager.flushBuffer db inst base cars rands
  | .claimOp limit inst now => (SqliteManager.getAndMarkPendingCars db limit inst now).2
  | .sentOp carIds jobIds => SqliteManager.markCarsAsSent db carIds jobIds
  | .pendOp carIds => SqliteManager.markCarsAsPending db carIds
  | .cleanupOp now maxAgeMs => (SqliteManager.cleanupStaleRecoveries db now maxAgeMs).1

namespace CircuitBreaker

lemma recordSuccess_closed {cb : CircuitBreaker} (h : cb.state = .CLOSED) :
    cb.recordSuccess = { cb with failureCount := 0 } := by
  simp [recordSuccess, h]

lemma recordSuccess_halfOpen {cb : CircuitBreaker} (h : cb.state = .HALF_OPEN) :
    cb.recordSuccess =
      { cb with state := .CLOSED, failureCount := 0, cooldownArmed := false } := by
  simp [recordSuccess, h]

lemma recordSuccess_open {cb : CircuitBreaker} (h : cb.state = .OPEN) :
    cb.recordSuccess = cb := by
  simp [recordSuccess, h]

lemma recordFailure_count (cb : CircuitBreaker) :
    cb.recordFailure.failureCount = cb.failureCount + 1 := by
  unfold recordFailure openBreaker
  rcases h : cb.state <;> simp [h]
  split <;> rfl

lemma recordFailure_closed_lt {cb : CircuitBreaker} (h : cb.state = .CLOSED)
    (hlt : cb.failureCount + 1 < cb.failureThreshold) :
    cb.recordFailure = { cb with failureCount := cb.failureCount + 1 } := by
  unfold recordFailure
  rw [h]
  simp [Nat.not_le.mpr hlt]

lemma recordFailure_closed_ge {cb : CircuitBreaker} (h : cb.state = .CLOSED)
    (hge : cb.failureThreshold ≤ cb.failureCount + 1) :
    cb.recordFailure =
      { cb with state := .OPEN, failureCount := cb.failureCount + 1,
                cooldownArmed := true } := by
  unfold recordFailure openBreaker
  rw [h]
  simp [hge]

lemma recordFailure_halfOpen {cb : CircuitBreaker} (h : cb.state = .HALF_OPEN) :
    cb.recordFailure =
      { cb with state := .OPEN, failureCount := cb.failureCount + 1,
                cooldownArmed := true } := by
  unfold recordFailure openBreaker
  rw [h]

lemma recordFailure_open {cb : CircuitBreaker} (h : cb.state = .OPEN) :
    cb.recordFailure = { cb with failureCount := cb.failureCount + 1 } := by
  unfold recordFailure
  rw [h]

/-- From OPEN, `recordSuccess`/`recordFailure` sequences never leave OPEN. -/
lemma applyCalls_open : ∀ (calls : List Call) (cb : CircuitBreaker),
    cb.state = .OPEN → (applyCalls cb calls).state = .OPEN
  | [], _, h => h
  | c :: cs, cb, h => by
      have hstep : (cb.applyCall c).state = .OPEN := by
        cases c
        · simpa [applyCall, recordSuccess_open h]
        · simp [applyCall, recordFailure_open h, h]
      exact applyCalls_open cs _ hstep

/-- A failure-only run from CLOSED that stays below the threshold just
counts up. -/
lemma applyCalls_replicate_failure_lt (th : Nat) (a : Bool) :
    ∀ (k c : Nat), c + k < th →
      applyCalls ⟨.CLOSED, c, th, a⟩ (List.replicate k .failure) =
        ⟨.CLOSED, c + k, th, a⟩
  | 0, c, _ => by simp [applyCalls]
  | k + 1, c, h => by
      have hc1 : c + 1 + k < th := by omega
      have hlt : c + 1 < th := by omega
      have hstep : (CircuitBreaker.mk .CLOSED c th a).recordFailure =
          ⟨.CLOSED, c + 1, th, a⟩ :=
        recordFailure_closed_lt rfl hlt
      simp only [List.replicate_succ, applyCalls, applyCall, hstep]
      rw [applyCalls_replicate_failure_lt th a k (c + 1) hc1]
      congr 1
      omega

/-- A failure-only run from CLOSED that reaches the threshold ends OPEN. -/
lemma applyCalls_replicate_failure_ge (th : Nat) (a : Bool) :
    ∀ (k c : Nat), 0 < k → th ≤ c + k →
      (applyCalls ⟨.CLOSED, c, th, a⟩ (List.replicate k .failure)).state = .OPEN
  | 0, _, hk, _ => absurd hk (by omega)
  | k + 1, c, _, h => by
      by_cases hth : th ≤ c + 1
      · have hstep : (CircuitBreaker.mk .CLOSED c th a).recordFailure =
            ⟨.OPEN, c + 1, th, true⟩ :=
          recordFailure_closed_ge rfl hth
        simp only [List.replicate_succ, applyCalls, applyCall, hstep]
        exact applyCalls_open _ _ rfl
      · have hlt : c + 1 < th := by omega
        have hstep : (CircuitBreaker.mk .CLOSED c th a).recordFailure =
            ⟨.CLOSED, c + 1, th, a⟩ :=
          recordFailure_closed_lt rfl hlt
        have hk : 0 < k := by omega
        simp only [List.replicate_succ, applyCalls, applyCall, hstep]
        exact applyCalls_replicate_failure_ge th a k (c + 1) hk (by omega)

end CircuitBreaker

/-- C4: the breaker is the specified three-state machine.  In CLOSED,
`recordFailure` increments the count and moves to OPEN (arming the
cooldown) exactly when the incremented count reaches the threshold, and
`recordSuccess` resets the count; in HALF_OPEN, `recordSuccess` moves to
CLOSED with count 0 cancelling the timer and `recordFailure` moves back to
OPEN; and a failure-only run from `CLOSED(0)` counts up `1, 2, …` while
below the threshold and is OPEN after `failureThreshold` failures. -/
theorem C4_circuit_breaker_machine (cb : CircuitBreaker) (k : Nat) (a : Bool)
    (hth : 0 < cb.failureThreshold) :
    (cb.state = .CLOSED →
      cb.recordFailure.failureCount = cb.failureCount + 1 ∧
      (cb.recordFailure.state = .OPEN ↔ cb.failureThreshold ≤ cb.failureCount + 1) ∧
      (cb.failureThreshold ≤ cb.failureCount + 1 → cb.recordFailure.cooldownArmed = true)) ∧
    (cb.state = .CLOSED → cb.recordSuccess = { cb with failureCount := 0 }) ∧
    (cb.state = .HALF_OPEN →
      cb.recordSuccess =
        { cb with state := .CLOSED, failureCount := 0, cooldownArmed := false }) ∧
    (cb.state = .HALF_OPEN →
      cb.recordFailure.state = .OPEN ∧ cb.recordFailure.cooldownArmed = true) ∧
    (k < cb.failureThreshold →
      CircuitBreaker.applyCalls ⟨.CLOSED, 0, cb.failureThreshold, a⟩
          (List.replicate k .failure) =
        ⟨.CLOSED, k, cb.failureThreshold, a⟩) ∧
    (CircuitBreaker.applyCalls ⟨.CLOSED, 0, cb.failureThreshold, a⟩
        (List.replicate cb.failureThreshold .failure)).state = .OPEN := by
  refine ⟨fun h => ⟨CircuitBreaker.recordFailure_count cb, ?_, ?_⟩,
    fun h => CircuitBreaker.recordSuccess_closed h,
    fun h => CircuitBreaker.recordSuccess_halfOpen h,
    fun h => by simp [CircuitBreaker.recordFailure_halfOpen h],
    fun hk => by
      simpa using CircuitBreaker.applyCalls_replicate_failure_lt
        cb.failureThreshold a k 0 (by omega),
    CircuitBreaker.applyCalls_replicate_failure_ge cb.failureThreshold a
      cb.failureThreshold 0 hth (by omega)⟩
  · constructor
    · intro hopen
      by_contra hlt
      rw [CircuitBreaker.recordFailure_closed_lt h (by omega)] at hopen
      simp [h] at hopen
    · intro hge
      rw [CircuitBreaker.recordFailure_closed_ge h hge]
  · intro hge
    rw [CircuitBreaker.recordFailure_closed_ge h hge]

/-- Witness for C4 at the default threshold 5. -/
theorem C4_circuit_breaker_machine_witness :
    ((CircuitBreaker.mk .CLOSED 0 5 false).recordFailure.state = .OPEN ↔
      (5 : Nat) ≤ 0 + 1) ∧
    (CircuitBreaker.applyCalls ⟨.CLOSED, 0, 5, false⟩
        (List.replicate 5 .failure)).state = .OPEN :=
  ⟨((C4_circuit_breaker_machine ⟨.CLOSED, 0, 5, false⟩ 3 false (by decide)).1
      rfl).2.1,
   (C4_circuit_breaker_machine ⟨.CLOSED, 0, 5, false⟩ 3 false (by decide)).2.2.2.2.2⟩

/-- C10: while the breaker is OPEN, `recordSuccess` changes nothing and
`recordFailure` only increments the count, leaving the state OPEN; hence
under any sequence of `recordSuccess`/`recordFailure` calls a breaker that
is OPEN stays OPEN — it never reaches CLOSED without an intervening
`reset`, `transitionToHalfOpen` or cooldown expiry. -/
theorem C10_open_never_directly_closed (cb : CircuitBreaker)
    (calls : List CircuitBreaker.Call) (h : cb.state = .OPEN) :
    cb.recordSuccess = cb ∧
    cb.recordFailure = { cb with failureCount := cb.failureCount + 1 } ∧
    (CircuitBreaker.applyCalls cb calls).state = .OPEN ∧
    (CircuitBreaker.applyCalls cb calls).state ≠ .CLOSED := by
  have hrun := CircuitBreaker.applyCalls_open calls cb h
  exact ⟨CircuitBreaker.recordSuccess_open h, CircuitBreaker.recordFailure_open h,
    hrun, by simp [hrun]⟩

/-- Witness for C10: an OPEN breaker at threshold 5 after a
success/failure/success run is still OPEN. -/
theorem C10_open_never_directly_closed_witness :
    (CircuitBreaker.applyCalls ⟨.OPEN, 5, 5, true⟩
        [.success, .failure, .success]).state = .OPEN :=
  (C10_open_never_directly_closed ⟨.OPEN, 5, 5, true⟩
    [.success, .failure, .success] rfl).2.2.1

namespace SqliteManager

/-- Effect of one `setPendingRetry` statement on one row. -/
def pendStep (r : PendingCar) (cid : String) : PendingCar :=
  if r.id = cid then { r with status := .PENDING, retry_count := r.retry_count + 1 }
  else r

lemma pendStep_id (r : PendingCar) (cid : String) : (pendStep r cid).id = r.id := by
  unfold pendStep
  split <;> rfl

lemma setPendingRetry_eq_map (db : List PendingCar) (cid : String) :
    setPendingRetry db cid = db.map (fun r => pendStep r cid) := rfl

lemma markCarsAsPending_eq_map :
    ∀ (ids : List String) (db : List PendingCar),
      markCarsAsPending db ids = db.map (fun r => ids.foldl pendStep r)
  | [], db => by simp [markCarsAsPending]
  | cid :: ids, db => by
      simp only [markCarsAsPending, List.foldl_cons] at *
      rw [show List.foldl setPendingRetry (setPendingRetry db cid) ids =
            markCarsAsPending (setPendingRetry db cid) ids from rfl,
        markCarsAsPending_eq_map ids, setPendingRetry_eq_map, List.map_map]
      rfl

/-- Folding `pendStep` over an id list: a row whose id is listed ends
`'pending'` with `retry_count` bumped once per occurrence and every other
column untouched; an unlisted row is untouched. -/
lemma foldl_pendStep_char :
    ∀ (ids : List String) (r : PendingCar),
      ids.foldl pendStep r =
        if r.id ∈ ids then
          { r with status := .PENDING, retry_count := r.retry_count + ids.count r.id }
        else r
  | [], r => by simp
  | cid :: ids, r => by
      simp only [List.foldl_cons]
      by_cases hc : r.id = cid
      · rw [show pendStep r cid =
            { r with status := .PENDING, retry_count := r.retry_count + 1 } from by
              simp [pendStep, hc]]
        rw [foldl_pendStep_char ids _]
        by_cases hm : r.id ∈ ids
        · have hm2 : cid ∈ ids := hc ▸ hm
          simp only [hm, hc, List.mem_cons, true_or, if_true, List.count_cons,
            beq_self_eq_true, hm2, PendingCar.mk.injEq, true_and, and_true]
          omega
        · have hm2 : ¬ cid ∈ ids := by rw [← hc]; exact hm
          simp [hm, hm2, hc, List.count_cons, List.count_eq_zero.2 hm2]
      · rw [show pendStep r cid = r from by simp [pendStep, hc]]
        rw [foldl_pendStep_char ids r]
        simp [List.mem_cons, hc, List.count_cons, Ne.symm hc]

/-- Effect of `markCarsAsSent` on one row, walking ids and job ids in
lockstep. -/
def sentFold : List String → List String → PendingCar → PendingCar
  | [], _, r => r
  | cid :: cids, jobs, r =>
      sentFold cids jobs.tail
        (if r.id = cid then { r with status := .SENT, redis_job_id := headJob jobs }
         else r)

lemma markCarsAsSent_eq_map :
    ∀ (cids jobs : List String) (db : List PendingCar),
      markCarsAsSent db cids jobs = db.map (sentFold cids jobs)
  | [], jobs, db => by simp [markCarsAsSent, sentFold]
  | cid :: cids, jobs, db => by
      simp only [markCarsAsSent]
      rw [markCarsAsSent_eq_map cids jobs.tail, setSent, List.map_map]
      rfl

lemma sentFold_id :
    ∀ (cids jobs : List String) (r : PendingCar), (sentFold cids jobs r).id = r.id
  | [], _, _ => rfl
  | cid :: cids, jobs, r => by
      rw [sentFold, sentFold_id cids]
      split <;> rfl

lemma sentFold_not_mem :
    ∀ (cids jobs : List String) (r : PendingCar), r.id ∉ cids → sentFold cids jobs r = r
  | [], _, _, _ => rfl
  | cid :: cids, jobs, r, h => by
      rw [sentFold, if_neg (by simp [List.mem_cons] at h; exact h.1)]
      exact sentFold_not_mem cids jobs.tail r (by simp [List.mem_cons] at h; exact h.2)

/-- A row whose id is listed (or that is already sent) ends `'sent'`,
whatever its previous status. -/
lemma sentFold_status :
    ∀ (cids jobs : List String) (r : PendingCar),
      r.id ∈ cids ∨ r.status = .SENT → (sentFold cids jobs r).status = .SENT
  | [], _, r, h => by simpa using h
  | cid :: cids, jobs, r, h => by
      rw [sentFold]
      by_cases hc : r.id = cid
      · rw [if_pos hc]
        by_cases hm : r.id ∈ cids
        · exact sentFold_status cids jobs.tail _ (Or.inl hm)
        · rw [sentFold_not_mem cids jobs.tail _ (by simpa using hm)]
      · rw [if_neg hc]
        rcases h with h | h
        · rcases List.mem_cons.1 h with h' | h'
          · exact absurd h' hc
          · exact sentFold_status cids jobs.tail r (Or.inl h')
        · exact sentFold_status cids jobs.tail r (Or.inr h)

end SqliteManager

namespace SqliteManager

lemma claimRow_id (inst : String) (now : Int) (r : PendingCar) :
    (claimRow inst now r).id = r.id := rfl

lemma getAndMark_fst (db : List PendingCar) (limit : Nat) (inst : String) (now : Int) :
    (getAndMarkPendingCars db limit inst now).1 =
      db.filterMap (fun r =>
        if r.id ∈ selectPendingIds db limit ∧ r.status = .PENDING then
          some (claimRow inst now r)
        else none) := rfl

lemma getAndMark_snd (db : List PendingCar) (limit : Nat) (inst : String) (now : Int) :
    (getAndMarkPendingCars db limit inst now).2 =
      db.map (fun r =>
        if r.id ∈ selectPendingIds db limit ∧ r.status = .PENDING then
          claimRow inst now r
        else r) := rfl

/-- Membership in the RETURNING rows of a claim. -/
lemma mem_claimed_iff {db : List PendingCar} {limit : Nat} {inst : String}
    {now : Int} {r : PendingCar} :
    r ∈ (getAndMarkPendingCars db limit inst now).1 ↔
      ∃ r0 ∈ db, r0.id ∈ selectPendingIds db limit ∧ r0.status = .PENDING ∧
        r = claimRow inst now r0 := by
  rw [getAndMark_fst, List.mem_filterMap]
  constructor
  · rintro ⟨a, ha, hfa⟩
    by_cases hc : a.id ∈ selectPendingIds db limit ∧ a.status = .PENDING
    · rw [if_pos hc] at hfa
      exact ⟨a, ha, hc.1, hc.2, (Option.some_injective _ hfa).symm⟩
    · rw [if_neg hc] at hfa
      exact absurd hfa (Option.noConfusion)
  · rintro ⟨r0, hr0, hsel, hpend, rfl⟩
    exact ⟨r0, hr0, by rw [if_pos ⟨hsel, hpend⟩]⟩

/-- Ids of a `filterMap` whose function preserves ids form a sublist of
the table's ids. -/
lemma map_id_filterMap_sublist (f : PendingCar → Option PendingCar)
    (hf : ∀ a b, f a = some b → b.id = a.id) :
    ∀ db : List PendingCar,
      ((db.filterMap f).map (fun r => r.id)).Sublist (db.map (fun r => r.id))
  | [] => List.Sublist.refl _
  | a :: db => by
      rw [List.filterMap_cons]
      cases hfa : f a with
      | none =>
          simp only [List.map_cons]
          exact (map_id_filterMap_sublist f hf db).cons _
      | some b =>
          simp only [List.map_cons, hf a b hfa]
          exact (map_id_filterMap_sublist f hf db).cons₂ _

lemma selectPendingIds_length_le (db : List PendingCar) (limit : Nat) :
    (selectPendingIds db limit).length ≤ limit := by
  simp only [selectPendingIds, List.length_map, List.length_take]
  exact min_le_left _ _

lemma claimed_map_id_sublist (db : List PendingCar) (limit : Nat) (inst : String)
    (now : Int) :
    (((getAndMarkPendingCars db limit inst now).1).map (fun r => r.id)).Sublist
      (db.map (fun r => r.id)) := by
  rw [getAndMark_fst]
  refine map_id_filterMap_sublist _ (fun a b h => ?_) db
  by_cases hc : a.id ∈ selectPendingIds db limit ∧ a.status = .PENDING
  · rw [if_pos hc] at h
    rw [← Option.some_injective _ h]
    rfl
  · rw [if_neg hc] at h
    exact absurd h (Option.noConfusion)

/-- With unique ids, a claim returns at most `limit` rows. -/
lemma claimed_length_le {db : List PendingCar} (limit : Nat) (inst : String)
    (now : Int) (hnd : (db.map (fun r => r.id)).Nodup) :
    (getAndMarkPendingCars db limit inst now).1.length ≤ limit := by
  have hsub : ∀ x ∈ ((getAndMarkPendingCars db limit inst now).1).map (fun r => r.id),
      x ∈ selectPendingIds db limit := by
    intro x hx
    rcases List.mem_map.1 hx with ⟨r, hr, rfl⟩
    rcases mem_claimed_iff.1 hr with ⟨r0, _, hsel, _, rfl⟩
    exact hsel
  have hndc : (((getAndMarkPendingCars db limit inst now).1).map (fun r => r.id)).Nodup :=
    (claimed_map_id_sublist db limit inst now).nodup hnd
  calc (getAndMarkPendingCars db limit inst now).1.length
      = (((getAndMarkPendingCars db limit inst now).1).map (fun r => r.id)).length :=
        (List.length_map _ _).symm
    _ ≤ (selectPendingIds db limit).length :=
        (List.subperm_of_subset hndc hsub).length_le
    _ ≤ limit := selectPendingIds_length_le db limit

/-- A claim rewrites no id: the updated table has the same id column. -/
lemma getAndMark_snd_map_id (db : List PendingCar) (limit : Nat) (inst : String)
    (now : Int) :
    ((getAndMarkPendingCars db limit inst now).2).map (fun r => r.id) =
      db.map (fun r => r.id) := by
  rw [getAndMark_snd, List.map_map]
  refine List.map_congr_left (fun r _ => ?_)
  by_cases hc : r.id ∈ selectPendingIds db limit ∧ r.status = .PENDING
  · simp [hc]
    rfl
  · simp [if_neg hc]

end SqliteManager

namespace SqliteManager

/-- With a unique id column, equal ids mean the same row. -/
lemma eq_of_mem_of_id_eq {db : List PendingCar}
    (hnd : (db.map (fun r => r.id)).Nodup) {a b : PendingCar}
    (ha : a ∈ db) (hb : b ∈ db) (h : a.id = b.id) : a = b :=
  List.inj_on_of_nodup_map hnd ha hb h

/-- After a claim, every row carrying a claimed id is `'recovering'`. -/
lemma claimed_id_recovering {db : List PendingCar} {limit : Nat} {inst : String}
    {now : Int} (hnd : (db.map (fun r => r.id)).Nodup) {r1 r' : PendingCar}
    (h1 : r1 ∈ (getAndMarkPendingCars db limit inst now).1)
    (h' : r' ∈ (getAndMarkPendingCars db limit inst now).2)
    (hid : r'.id = r1.id) : r'.status = .RECOVERING := by
  rcases mem_claimed_iff.1 h1 with ⟨r0, hr0, hsel, hpend, rfl⟩
  rw [getAndMark_snd] at h'
  rcases List.mem_map.1 h' with ⟨r0', hr0', rfl⟩
  by_cases hc : r0'.id ∈ selectPendingIds db limit ∧ r0'.status = .PENDING
  · rw [if_pos hc]
    rfl
  · rw [if_neg hc] at hid ⊢
    exact absurd ⟨hid ▸ hsel, (eq_of_mem_of_id_eq hnd hr0' hr0 hid) ▸ hpend⟩ hc

/-- Claimed rows are the earliest-created pending rows: any pending row
left unselected was created no earlier. -/
lemma claimed_created_at_le {db : List PendingCar} {limit : Nat} {inst : String}
    {now : Int} (hnd : (db.map (fun r => r.id)).Nodup) {r1 p : PendingCar}
    (h1 : r1 ∈ (getAndMarkPendingCars db limit inst now).1)
    (hp : p ∈ db) (hpend : p.status = .PENDING)
    (hout : p.id ∉ selectPendingIds db limit) :
    r1.created_at ≤ p.created_at := by
  rcases mem_claimed_iff.1 h1 with ⟨r0, hr0, hsel, hr0pend, rfl⟩
  have hfnd : ((db.filter (fun r => r.status = .PENDING)).map (fun r => r.id)).Nodup :=
    ((List.filter_sublist db).map (fun r => r.id)).nodup hnd
  set L := (db.filter (fun r => r.status = .PENDING)).insertionSort createdLE with hL
  have hLperm : L.Perm (db.filter (fun r => r.status = .PENDING)) :=
    List.perm_insertionSort _ _
  have hLnd : (L.map (fun r => r.id)).Nodup :=
    ((hLperm.map (fun r => r.id)).nodup_iff).2 hfnd
  have hsorted : List.Sorted createdLE L := List.sorted_insertionSort _ _
  -- the selected row sits among the first `limit` rows of the sort
  rcases List.mem_map.1 hsel with ⟨q, hq, hqid⟩
  have hqL : q ∈ L := List.mem_of_mem_take hq
  have hr0L : r0 ∈ L := hLperm.mem_iff.2 (List.mem_filter.2 ⟨hr0, by simp [hr0pend]⟩)
  have hqdb : q ∈ db := List.mem_of_mem_filter (hLperm.mem_iff.1 hqL)
  have hqr0 : q = r0 := eq_of_mem_of_id_eq hnd hqdb hr0 hqid
  -- the unselected pending row sits in the dropped suffix
  have hpL : p ∈ L := hLperm.mem_iff.2 (List.mem_filter.2 ⟨hp, by simp [hpend]⟩)
  have hpdrop : p ∈ L.drop limit := by
    rcases (List.mem_append.1 (by rw [List.take_append_drop limit L]; exact hpL)) with
      h | h
    · exact absurd (List.mem_map.2 ⟨p, h, rfl⟩) hout
    · exact h
  have := hsorted.rel_of_mem_take_of_mem_drop (hqr0 ▸ hq) hpdrop
  exact this

end SqliteManager

/-- A concrete `pending_cars` row for witnesses and counterexamples. -/
def testRow (i : String) (t : Int) (st : RecoveryStatus)
    (inst : Option String) (rsa : Option Int) : PendingCar :=
  { id := i, normalized_make := "mk", normalized_model := "md", year := 2020,
    price := 1, location := "loc", created_at := t, status := st,
    retry_count := 0, recovery_instance := inst, recovery_started_at := rsa,
    redis_job_id := none }

open SqliteManager in
/-- C2: with a unique id column, `getAndMarkPendingCars(limit, instanceId)`
returns at most `limit` rows; each returned row is the full updated image
of a previously pending row — status `'recovering'`, the claimer and claim
time set together with every other column kept; the claimed rows are the
earliest-created pending rows; the updated table differs from the old one
only by fully claimed rows (no partial claim) and keeps the id column; and
two serialized claims return disjoint id sets. -/
theorem C2_claimPending_atomic_exclusive (db : List PendingCar)
    (limit limit2 : Nat) (inst inst2 : String) (now now2 : Int)
    (hnd : (db.map (fun r => r.id)).Nodup) :
    (getAndMarkPendingCars db limit inst now).1.length ≤ limit ∧
    (∀ r ∈ (getAndMarkPendingCars db limit inst now).1,
      r.status = .RECOVERING ∧ r.recovery_instance = some inst ∧
      r.recovery_started_at = some now ∧
      ∃ r0 ∈ db, r0.status = .PENDING ∧ r = claimRow inst now r0) ∧
    (∀ r ∈ (getAndMarkPendingCars db limit inst now).1, ∀ p ∈ db,
      p.status = .PENDING → p.id ∉ selectPendingIds db limit →
      r.created_at ≤ p.created_at) ∧
    (∀ r' ∈ (getAndMarkPendingCars db limit inst now).2,
      r' ∈ db ∨ ∃ r0 ∈ db, r0.status = .PENDING ∧ r' = claimRow inst now r0) ∧
    ((getAndMarkPendingCars db limit inst now).2.map (fun r => r.id) =
      db.map (fun r => r.id)) ∧
    (∀ x, x ∈ ((getAndMarkPendingCars db limit inst now).1.map (fun r => r.id)) →
      x ∈ (((getAndMarkPendingCars
              (getAndMarkPendingCars db limit inst now).2 limit2 inst2
              now2).1).map (fun r => r.id)) → False) := by
  refine ⟨claimed_length_le limit inst now hnd, ?_, ?_, ?_,
    getAndMark_snd_map_id db limit inst now, ?_⟩
  · intro r hr
    rcases mem_claimed_iff.1 hr with ⟨r0, hr0, _, hpend, rfl⟩
    exact ⟨rfl, rfl, rfl, r0, hr0, hpend, rfl⟩
  · intro r hr p hp hpend hout
    exact claimed_created_at_le hnd hr hp hpend hout
  · intro r' hr'
    rw [getAndMark_snd] at hr'
    rcases List.mem_map.1 hr' with ⟨r0, hr0, rfl⟩
    by_cases hc : r0.id ∈ selectPendingIds db limit ∧ r0.status = .PENDING
    · rw [if_pos hc]
      exact Or.inr ⟨r0, hr0, hc.2, rfl⟩
    · rw [if_neg hc]
      exact Or.inl hr0
  · intro x hx1 hx2
    rcases List.mem_map.1 hx1 with ⟨r1, h1, rfl⟩
    rcases List.mem_map.1 hx2 with ⟨r2, h2, hid⟩
    rcases mem_claimed_iff.1 h2 with ⟨r0', hr0', _, hpend', rfl⟩
    have hrec : r0'.status = .RECOVERING :=
      claimed_id_recovering hnd h1 hr0' (by simpa using hid)
    rw [hpend'] at hrec
    exact RecoveryStatus.noConfusion hrec

/-- Witness for C2 on a two-row table with limit 1. -/
theorem C2_claimPending_atomic_exclusive_witness :
    (SqliteManager.getAndMarkPendingCars
        [testRow "a" 10 .PENDING none none, testRow "b" 20 .PENDING none none]
        1 "inst1" 100).1.length ≤ 1 :=
  (C2_claimPending_atomic_exclusive
    [testRow "a" 10 .PENDING none none, testRow "b" 20 .PENDING none none]
    1 1 "inst1" "inst2" 100 200 (by decide)).1

/-- C3 counterexample: `markCarsAsPending` — one of the quantified
durable-store operations — moves a `'sent'` record back to `'pending'`
(its UPDATE has no status guard), so a record does move out of Sent. -/
theorem C3_counterexample_sent_reverted :
    (testRow "a" 10 .SENT none none).status = .SENT ∧
    (applyStoreOp [testRow "a" 10 .SENT none none] (.pendOp ["a"])).map
        (fun r => r.status) = [.PENDING] := by
  constructor
  · rfl
  · rfl

open SqliteManager in
/-- C3 amended: the guarded operations respect the specified edges —
`getAndMarkPendingCars` moves rows only Pending → Recovering,
`cleanupStaleRecoveries` only Recovering → Pending, and a flush appends
only Pending rows, leaving the existing table intact — but `markCarsAsSent`
and `markCarsAsPending` update listed ids with no status guard, so they
can move a row of any status to Sent resp. Pending; and the drain's
batch-level exception path (`revertClaimedOnBatchError`) reverts every
claimed id to Pending, including rows already marked Sent. -/
theorem C3_amended_status_transitions (db : List PendingCar) (limit : Nat)
    (instS : String) (now maxAge baseTime : Int) (cars : List Car)
    (rands : List String) (cids jobs ids : List String)
    (claimed : List PendingCar) :
    (∀ i : Nat,
      ((getAndMarkPendingCars db limit instS now).2[i]? = db[i]?) ∨
      ∃ r, db[i]? = some r ∧ r.status = .PENDING ∧
        (getAndMarkPendingCars db limit instS now).2[i]? =
          some (claimRow instS now r)) ∧
    (∀ i : Nat,
      ((cleanupStaleRecoveries db now maxAge).1[i]? = db[i]?) ∨
      ∃ r, db[i]? = some r ∧ r.status = .RECOVERING ∧
        (cleanupStaleRecoveries db now maxAge).1[i]? =
          some { r with status := .PENDING, recovery_instance := none,
                        recovery_started_at := none }) ∧
    ((flushBuffer db instS baseTime cars rands).take db.length = db ∧
      ∀ r ∈ (flushBuffer db instS baseTime cars rands).drop db.length,
        r.status = .PENDING) ∧
    (∀ (i : Nat) (r : PendingCar), db[i]? = some r →
      ∃ r', (markCarsAsSent db cids jobs)[i]? = some r' ∧ r'.id = r.id ∧
        (r.id ∈ cids → r'.status = .SENT) ∧ (r.id ∉ cids → r' = r)) ∧
    (∀ (i : Nat) (r : PendingCar), db[i]? = some r →
      ∃ r', (markCarsAsPending db ids)[i]? = some r' ∧
        (r.id ∈ ids → r'.status = .PENDING ∧
          r'.recovery_instance = r.recovery_instance ∧
          r'.recovery_started_at = r.recovery_started_at) ∧
        (r.id ∉ ids → r' = r)) ∧
    (∀ (i : Nat) (r : PendingCar), db[i]? = some r →
      r.id ∈ claimed.map (fun c => c.id) →
      ∃ r', (RecoveryManager.revertClaimedOnBatchError db claimed)[i]? = some r' ∧
        r'.status = .PENDING) := by
  refine ⟨?_, ?_, ⟨?_, ?_⟩, ?_, ?_, ?_⟩
  · intro i
    rw [getAndMark_snd, List.getElem?_map]
    cases h : db[i]? with
    | none => exact Or.inl rfl
    | some r =>
        by_cases hc : r.id ∈ selectPendingIds db limit ∧ r.status = .PENDING
        · exact Or.inr ⟨r, rfl, hc.2, by rw [Option.map_some', if_pos hc]⟩
        · exact Or.inl (by rw [Option.map_some', if_neg hc])
  · intro i
    have hfst : (cleanupStaleRecoveries db now maxAge).1 =
        db.map (fun r => if isStale (now - maxAge) r then
          { r with status := .PENDING, recovery_instance := none,
                   recovery_started_at := none } else r) := rfl
    rw [hfst, List.getElem?_map]
    cases h : db[i]? with
    | none => exact Or.inl rfl
    | some r =>
        by_cases hc : isStale (now - maxAge) r = true
        · refine Or.inr ⟨r, rfl, ?_, by rw [Option.map_some', if_pos hc]⟩
          unfold isStale at hc
          rcases hs : r.status <;> rcases hrsa : r.recovery_started_at <;>
            rw [hs, hrsa] at hc <;> first | rfl | exact absurd hc (by simp)
        · exact Or.inl (by rw [Option.map_some', if_neg hc])
  · rw [flushBuffer, List.take_append_of_le_length (le_refl _), List.take_length]
  · intro r hr
    rw [flushBuffer, List.drop_append_of_le_length (le_refl _), List.drop_length,
      List.nil_append] at hr
    rcases List.mem_mapIdx.1 hr with ⟨i, _, rfl⟩
    rfl
  · intro i r hr
    rw [markCarsAsSent_eq_map, List.getElem?_map, hr, Option.map_some']
    exact ⟨_, rfl, sentFold_id cids jobs r,
      fun hm => sentFold_status cids jobs r (Or.inl hm),
      fun hm => sentFold_not_mem cids jobs r hm⟩
  · intro i r hr
    rw [markCarsAsPending_eq_map, List.getElem?_map, hr, Option.map_some']
    refine ⟨_, rfl, fun hm => ?_, fun hm => ?_⟩
    · rw [foldl_pendStep_char, if_pos hm]
      exact ⟨rfl, rfl, rfl⟩
    · rw [foldl_pendStep_char, if_neg hm]
  · intro i r hr hm
    rw [RecoveryManager.revertClaimedOnBatchError, markCarsAsPending_eq_map,
      List.getElem?_map, hr, Option.map_some']
    exact ⟨_, rfl, by rw [foldl_pendStep_char, if_pos hm]⟩

/-- Witness for C3 amended: a sent row listed in a `markCarsAsPending`
call comes back `'pending'` with its recovery columns untouched. -/
theorem C3_amended_status_transitions_witness :
    ∃ r', (SqliteManager.markCarsAsPending
        [testRow "a" 10 .SENT (some "i0") (some 3)] ["a"])[0]? = some r' ∧
      r'.status = .PENDING ∧ r'.recovery_instance = some "i0" ∧
      r'.recovery_started_at = some 3 := by
  obtain ⟨r', h1, h2, _⟩ :=
    (C3_amended_status_transitions [testRow "a" 10 .SENT (some "i0") (some 3)]
      1 "i1" 0 0 0 [] [] [] [] ["a"] []).2.2.2.2.1 0
      (testRow "a" 10 .SENT (some "i0") (some 3)) rfl
  obtain ⟨hs, hri, hrs⟩ := h2 (by decide)
  exact ⟨r', h1, hs, by rw [hri]; rfl, by rw [hrs]; rfl⟩

open SqliteManager in
/-- C6: `cleanupStaleRecoveries(maxAgeMs)` keeps the table's length,
reverts exactly the rows that are `'recovering'` with a non-null
`recovery_started_at` strictly below `now - maxAgeMs` — setting them
`'pending'` and clearing both recovery columns while keeping
`retry_count` and every other column — leaves every other row untouched,
and returns the number of reverted rows. -/
theorem C6_cleanup_stale_frame (db : List PendingCar) (now maxAgeMs : Int) :
    (cleanupStaleRecoveries db now maxAgeMs).1.length = db.length ∧
    (∀ r, isStale (now - maxAgeMs) r = true ↔
      (r.status = .RECOVERING ∧
        ∃ t, r.recovery_started_at = some t ∧ t < now - maxAgeMs)) ∧
    (∀ (i : Nat) (r : PendingCar), db[i]? = some r →
      ((r.status = .RECOVERING ∧
          ∃ t, r.recovery_started_at = some t ∧ t < now - maxAgeMs) →
        (cleanupStaleRecoveries db now maxAgeMs).1[i]? =
          some { r with status := .PENDING, recovery_instance := none,
                        recovery_started_at := none }) ∧
      (¬(r.status = .RECOVERING ∧
          ∃ t, r.recovery_started_at = some t ∧ t < now - maxAgeMs) →
        (cleanupStaleRecoveries db now maxAgeMs).1[i]? = some r)) ∧
    (cleanupStaleRecoveries db now maxAgeMs).2 =
      (db.filter (isStale (now - maxAgeMs))).length := by
  have hiff : ∀ r : PendingCar, isStale (now - maxAgeMs) r = true ↔
      (r.status = .RECOVERING ∧
        ∃ t, r.recovery_started_at = some t ∧ t < now - maxAgeMs) := by
    intro r
    unfold isStale
    rcases hs : r.status <;> rcases hrsa : r.recovery_started_at with _ | t <;>
      simp [hs, hrsa]
  have hfst : (cleanupStaleRecoveries db now maxAgeMs).1 =
      db.map (fun r => if isStale (now - maxAgeMs) r then
        { r with status := .PENDING, recovery_instance := none,
                 recovery_started_at := none } else r) := rfl
  refine ⟨by rw [hfst, List.length_map], hiff, ?_, rfl⟩
  intro i r hr
  rw [hfst, List.getElem?_map, hr, Option.map_some']
  constructor
  · intro hcond
    rw [if_pos ((hiff r).2 hcond)]
  · intro hcond
    rw [if_neg (fun hb => hcond ((hiff r).1 hb))]

open SqliteManager in
/-- Witness for C6 on a table with one stale recovering row and one fresh
one: only the stale row is reverted and the count is 1. -/
theorem C6_cleanup_stale_frame_witness :
    (cleanupStaleRecoveries
      [testRow "a" 10 .RECOVERING (some "i0") (some 0),
       testRow "b" 20 .RECOVERING (some "i0") (some 90)] 100 50).1[0]? =
        some { testRow "a" 10 .RECOVERING (some "i0") (some 0) with
                 status := .PENDING, recovery_instance := none,
                 recovery_started_at := none } ∧
    (cleanupStaleRecoveries
      [testRow "a" 10 .RECOVERING (some "i0") (some 0),
       testRow "b" 20 .RECOVERING (some "i0") (some 90)] 100 50).1[1]? =
        some (testRow "b" 20 .RECOVERING (some "i0") (some 90)) := by
  constructor
  · exact (((C6_cleanup_stale_frame
      [testRow "a" 10 .RECOVERING (some "i0") (some 0),
       testRow "b" 20 .RECOVERING (some "i0") (some 90)] 100 50).2.2.1 0
      (testRow "a" 10 .RECOVERING (some "i0") (some 0)) rfl).1
      ⟨rfl, 0, rfl, by decide⟩)
  · exact (((C6_cleanup_stale_frame
      [testRow "a" 10 .RECOVERING (some "i0") (some 0),
       testRow "b" 20 .RECOVERING (some "i0") (some 90)] 100 50).2.2.1 1
      (testRow "b" 20 .RECOVERING (some "i0") (some 90)) rfl).2
      (by decide))

namespace SqliteManager

/-- With unique ids, the table row carrying a claimed id after the claim
is exactly the returned (claimed) row. -/
lemma claimed_row_in_newDb {db : List PendingCar} {limit : Nat} {inst : String}
    {now : Int} (hnd : (db.map (fun r => r.id)).Nodup) {r1 r' : PendingCar}
    (h1 : r1 ∈ (getAndMarkPendingCars db limit inst now).1)
    (h' : r' ∈ (getAndMarkPendingCars db limit inst now).2)
    (hid : r'.id = r1.id) : r' = r1 := by
  rcases mem_claimed_iff.1 h1 with ⟨r0, hr0, hsel, hpend, rfl⟩
  rw [getAndMark_snd] at h'
  rcases List.mem_map.1 h' with ⟨r0', hr0', rfl⟩
  by_cases hc : r0'.id ∈ selectPendingIds db limit ∧ r0'.status = .PENDING
  · rw [if_pos hc] at hid ⊢
    rw [eq_of_mem_of_id_eq hnd hr0' hr0 hid]
  · rw [if_neg hc] at hid ⊢
    exact absurd ⟨hid ▸ hsel, (eq_of_mem_of_id_eq hnd hr0' hr0 hid) ▸ hpend⟩ hc

lemma foldl_pendStep_id (ids : List String) (r : PendingCar) :
    (ids.foldl pendStep r).id = r.id := by
  rw [foldl_pendStep_char]
  split <;> rfl

end SqliteManager

open SqliteManager in
/-- C9: `markCarsAsPending(ids)` sets every listed row to `'pending'` with
`retry_count + 1` while leaving `recovery_instance`, `recovery_started_at`
and all other columns untouched, and leaves unlisted rows untouched;
consequently a row claimed by `getAndMarkPendingCars` and then released by
`markCarsAsPending` is a pending row that still carries the claimer's
`recovery_instance` and `recovery_started_at`. -/
theorem C9_markPending_keeps_claimer (db : List PendingCar) (ids : List String)
    (limit : Nat) (inst : String) (now : Int)
    (hnd : (db.map (fun r => r.id)).Nodup) (hidnd : ids.Nodup) :
    (∀ (i : Nat) (r : PendingCar), db[i]? = some r →
      (r.id ∈ ids → (markCarsAsPending db ids)[i]? =
        some { r with status := .PENDING, retry_count := r.retry_count + 1 }) ∧
      (r.id ∉ ids → (markCarsAsPending db ids)[i]? = some r)) ∧
    (∀ r ∈ markCarsAsPending (getAndMarkPendingCars db limit inst now).2
        (((getAndMarkPendingCars db limit inst now).1).map (fun c => c.id)),
      r.id ∈ (((getAndMarkPendingCars db limit inst now).1).map (fun c => c.id)) →
      r.status = .PENDING ∧ r.recovery_instance = some inst ∧
        r.recovery_started_at = some now) := by
  constructor
  · intro i r hr
    rw [markCarsAsPending_eq_map, List.getElem?_map, hr, Option.map_some']
    constructor
    · intro hm
      rw [foldl_pendStep_char, if_pos hm, List.count_eq_one_of_mem hidnd hm]
    · intro hm
      rw [foldl_pendStep_char, if_neg hm]
  · intro r hr hid
    rw [markCarsAsPending_eq_map] at hr
    rcases List.mem_map.1 hr with ⟨r0, hr0, rfl⟩
    rw [foldl_pendStep_id] at hid
    rcases List.mem_map.1 hid with ⟨r1, h1, hid1⟩
    have hr0eq : r0 = r1 := claimed_row_in_newDb hnd h1 hr0 hid1.symm
    rcases mem_claimed_iff.1 h1 with ⟨r2, _, _, _, hr1eq⟩
    rw [foldl_pendStep_char, if_pos hid]
    refine ⟨rfl, ?_, ?_⟩
    · show r0.recovery_instance = some inst
      rw [hr0eq, hr1eq]
      rfl
    · show r0.recovery_started_at = some now
      rw [hr0eq, hr1eq]
      rfl

open SqliteManager in
/-- Witness for C9: claim the single pending row of a one-row table, then
release it; the released row is pending again but still carries the
claimer. -/
theorem C9_markPending_keeps_claimer_witness :
    ({ (testRow "a" 10 .PENDING none none) with status := .PENDING, retry_count := 1, recovery_instance := some "w9", recovery_started_at := some 77 } : PendingCar).status = .PENDING ∧
    ({ (testRow "a" 10 .PENDING none none) with status := .PENDING, retry_count := 1, recovery_instance := some "w9", recovery_started_at := some 77 } : PendingCar).recovery_instance = some "w9" ∧
    ({ (testRow "a" 10 .PENDING none none) with status := .PENDING, retry_count := 1, recovery_instance := some "w9", recovery_started_at := some 77 } : PendingCar).recovery_started_at = some 77 :=
  (C9_markPending_keeps_claimer [testRow "a" 10 .PENDING none none] []
    5 "w9" 77 (by decide) (by decide)).2
    { (testRow "a" 10 .PENDING none none) with status := .PENDING, retry_count := 1, recovery_instance := some "w9", recovery_started_at := some 77 }
    (by decide) (by decide)

namespace MetricsState

lemma increment_count (m : MetricsState) :
    m.incrementSqliteFallbackCount.sqliteFallbackCount = m.sqliteFallbackCount + 1 := rfl

lemma recordMasterFailure_active {m : MetricsState} (now : Int)
    (h : m.noActiveSession = false) :
    (m.recordMasterFailure now).sqliteFallbackCount = m.sqliteFallbackCount ∧
    (m.recordMasterFailure now).noActiveSession = false := by
  unfold recordMasterFailure
  rw [h]
  refine ⟨rfl, ?_⟩
  unfold noActiveSession at h ⊢
  rcases hs : m.currentSession with _ | s
  · rw [hs] at h
    exact absurd h (by simp)
  · rw [hs] at h
    simp only [Option.map_some']
    simpa using h

lemma recordStateTransitionToSqlite_active {m : MetricsState} (now : Int)
    (h : m.noActiveSession = false) :
    (m.recordStateTransitionToSqlite now).sqliteFallbackCount =
      m.sqliteFallbackCount ∧
    (m.recordStateTransitionToSqlite now).noActiveSession = false := by
  unfold recordStateTransitionToSqlite
  rw [h]
  refine ⟨rfl, ?_⟩
  unfold noActiveSession at h ⊢
  rcases hs : m.currentSession with _ | s
  · rw [hs] at h
    exact absurd h (by simp)
  · rw [hs] at h
    simp only [Option.map_some']
    simpa using h

end MetricsState

/-- C1 counterexample: a transport-classified enqueue failure that leaves
the breaker CLOSED (first failure, threshold 5) is nevertheless written to
the durable store and counted by the fallback counter. -/
theorem C1_counterexample_closed_still_falls_back :
    (WriteHandler.writeToRedis ⟨.CLOSED, 0, 5, false⟩ .REDIS_MODE
        MetricsState.init (.failure true) 100).breaker.state = .CLOSED ∧
    (WriteHandler.writeToRedis ⟨.CLOSED, 0, 5, false⟩ .REDIS_MODE
        MetricsState.init (.failure true) 100).savedToSqlite = true ∧
    (WriteHandler.writeToRedis ⟨.CLOSED, 0, 5, false⟩ .REDIS_MODE
        MetricsState.init (.failure true) 100).metrics.sqliteFallbackCount =
      MetricsState.init.sqliteFallbackCount + 1 := by
  refine ⟨rfl, rfl, rfl⟩

/-- C1 amended: on every transport-classified enqueue failure (reached
with the breaker not OPEN at re-check), `recordFailure()` is applied, the
record is written to the durable store and the fallback counter is
incremented — whether or not the breaker opened; only the state switch to
SQLITE_MODE (with its metrics signals) is conditional on the breaker now
being OPEN. -/
theorem C1_amended_transport_failure_handling (cb : CircuitBreaker)
    (st : SeederState) (m : MetricsState) (now : Int)
    (hnotopen : cb.isOpen = false) :
    (WriteHandler.writeToRedis cb st m (.failure true) now).breaker =
      cb.recordFailure ∧
    (WriteHandler.writeToRedis cb st m (.failure true) now).savedToSqlite = true ∧
    (WriteHandler.writeToRedis cb st m (.failure true) now).rethrown = false ∧
    (cb.recordFailure.isOpen = true →
      (WriteHandler.writeToRedis cb st m (.failure true) now).seeder =
        .SQLITE_MODE) ∧
    (cb.recordFailure.isOpen = false →
      (WriteHandler.writeToRedis cb st m (.failure true) now).seeder = st ∧
      (WriteHandler.writeToRedis cb st m (.failure true) now).metrics =
        m.incrementSqliteFallbackCount) ∧
    (m.noActiveSession = false →
      (WriteHandler.writeToRedis cb st m
          (.failure true) now).metrics.sqliteFallbackCount =
        m.sqliteFallbackCount + 1) := by
  unfold WriteHandler.writeToRedis
  rw [hnotopen]
  simp only [Bool.false_eq_true, if_false, ite_true, if_true]
  by_cases hopen : cb.recordFailure.isOpen = true
  · rw [if_pos hopen]
    refine ⟨rfl, rfl, rfl, fun _ => rfl, fun h => absurd hopen (by rw [h]; simp), ?_⟩
    intro hact
    by_cases hst : st = .REDIS_MODE
    · rw [if_pos hst, MetricsState.increment_count,
        (MetricsState.recordStateTransitionToSqlite_active now
          (MetricsState.recordMasterFailure_active now hact).2).1,
        (MetricsState.recordMasterFailure_active now hact).1]
    · rw [if_neg hst, MetricsState.increment_count,
        (MetricsState.recordStateTransitionToSqlite_active now hact).1]
  · rw [if_neg hopen]
    exact ⟨rfl, rfl, rfl, fun h => absurd h hopen, fun _ => ⟨rfl, rfl⟩,
      fun _ => MetricsState.increment_count m⟩

/-- Witness for C1 amended at a concrete second failure below threshold. -/
theorem C1_amended_transport_failure_handling_witness :
    (WriteHandler.writeToRedis ⟨.CLOSED, 1, 5, false⟩ .REDIS_MODE
        MetricsState.init (.failure true) 7).breaker =
      CircuitBreaker.recordFailure ⟨.CLOSED, 1, 5, false⟩ :=
  (C1_amended_transport_failure_handling ⟨.CLOSED, 1, 5, false⟩ .REDIS_MODE
    MetricsState.init 7 (by decide)).1

/-- C5: `writeCar` routes in order — HALF_OPEN breaker first (remote probe
even in SQLITE_MODE), then REDIS_MODE (remote), else durable only — and
inside the remote attempt a breaker found OPEN switches the state to
SQLITE_MODE and sends the record down the durable path without touching
the queue; when the breaker is not OPEN at the re-check the enqueue is
attempted. -/
theorem C5_writeCar_routing (cbR cbW : CircuitBreaker) (st : SeederState)
    (m : MetricsState) (enq : EnqueueResult) (now : Int) :
    (cbR.isHalfOpen = true →
      WriteHandler.writeCar cbR cbW st m enq now =
        WriteHandler.writeToRedis cbW st m enq now) ∧
    (cbR.isHalfOpen = false → st = .REDIS_MODE →
      WriteHandler.writeCar cbR cbW st m enq now =
        WriteHandler.writeToRedis cbW st m enq now) ∧
    (cbR.isHalfOpen = false → st = .SQLITE_MODE →
      WriteHandler.writeCar cbR cbW st m enq now =
        { breaker := cbR, seeder := st, metrics := m, enqueueAttempted := false,
          savedToSqlite := true, rethrown := false }) ∧
    (cbW.isOpen = true →
      WriteHandler.writeToRedis cbW st m enq now =
        { breaker := cbW, seeder := .SQLITE_MODE, metrics := m,
          enqueueAttempted := false, savedToSqlite := true, rethrown := false }) ∧
    (cbW.isOpen = false →
      (WriteHandler.writeToRedis cbW st m enq now).enqueueAttempted = true) := by
  refine ⟨?_, ?_, ?_, ?_, ?_⟩
  · intro h
    unfold WriteHandler.writeCar
    rw [h]
    rfl
  · intro h hst
    unfold WriteHandler.writeCar
    rw [h, hst]
    rfl
  · intro h hst
    unfold WriteHandler.writeCar
    rw [h, hst]
    rfl
  · intro h
    unfold WriteHandler.writeToRedis
    rw [h]
    rfl
  · intro h
    unfold WriteHandler.writeToRedis
    rw [h]
    rcases enq with j | isErr
    · simp only [Bool.false_eq_true, if_false]
      split <;> rfl
    · rcases isErr <;> simp only [Bool.false_eq_true, if_false] <;> split <;>
        first | rfl | (split <;> rfl)

/-- Witness for C5: a HALF_OPEN routing check in SQLITE_MODE still probes
the remote. -/
theorem C5_writeCar_routing_witness :
    WriteHandler.writeCar ⟨.HALF_OPEN, 0, 5, false⟩ ⟨.HALF_OPEN, 0, 5, false⟩
        .SQLITE_MODE MetricsState.init (.success none) 9 =
      WriteHandler.writeToRedis ⟨.HALF_OPEN, 0, 5, false⟩ .SQLITE_MODE
        MetricsState.init (.success none) 9 :=
  (C5_writeCar_routing ⟨.HALF_OPEN, 0, 5, false⟩ ⟨.HALF_OPEN, 0, 5, false⟩
    .SQLITE_MODE MetricsState.init (.success none) 9).1 (by decide)

/-- C7 counterexample: with the breaker CLOSED and a *successful* ping,
`isRedisAvailable()` still attempts the `testWrite()` probe, and its
boolean result follows the probe, not the ping. -/
theorem C7_counterexample_ping_ok_still_probes :
    (RecoveryManager.isRedisAvailable true true ⟨.CLOSED, 0, 5, false⟩
        true false).probeAttempted = true ∧
    (RecoveryManager.isRedisAvailable true true ⟨.CLOSED, 0, 5, false⟩
        true false).result = false := by
  exact ⟨rfl, rfl⟩

/-- C7 amended: `isRedisAvailable()` returns false when the breaker is
OPEN without attempting any remote operation; otherwise it issues the
2-second-deadline ping, ignores the ping's outcome, and — whenever the
queue handle is set — attempts the `testWrite()` probe (even after a
successful ping) and returns the probe's result; without a client or
without a queue it returns false. -/
theorem C7_amended_isRedisAvailable (cb : CircuitBreaker)
    (hasQueue pingOk testOk : Bool) :
    (cb.isOpen = true →
      RecoveryManager.isRedisAvailable true hasQueue cb pingOk testOk =
        { result := false, pingAttempted := false, probeAttempted := false }) ∧
    (cb.isOpen = false →
      RecoveryManager.isRedisAvailable true true cb pingOk testOk =
        { result := testOk, pingAttempted := true, probeAttempted := true }) ∧
    (RecoveryManager.isRedisAvailable true hasQueue cb true testOk =
      RecoveryManager.isRedisAvailable true hasQueue cb false testOk) ∧
    (cb.isOpen = false →
      RecoveryManager.isRedisAvailable true false cb pingOk testOk =
        { result := false, pingAttempted := true, probeAttempted := false }) ∧
    (RecoveryManager.isRedisAvailable false hasQueue cb pingOk testOk =
      { result := false, pingAttempted := false, probeAttempted := false }) := by
  refine ⟨?_, ?_, ?_, ?_, rfl⟩
  · intro h
    unfold RecoveryManager.isRedisAvailable
    rw [h]
    rfl
  · intro h
    unfold RecoveryManager.isRedisAvailable
    rw [h]
    rfl
  · rfl
  · intro h
    unfold RecoveryManager.isRedisAvailable
    rw [h]
    rfl

/-- Witness for C7 amended: OPEN breaker short-circuits with no ping and
no probe. -/
theorem C7_amended_isRedisAvailable_witness :
    RecoveryManager.isRedisAvailable true true ⟨.OPEN, 5, 5, true⟩ true true =
      { result := false, pingAttempted := false, probeAttempted := false } :=
  (C7_amended_isRedisAvailable ⟨.OPEN, 5, 5, true⟩ true true true).1 (by decide)

namespace MetricsState

/-- The session's counter mirrors the process-wide counter (holds in every
reachable state). -/
def sessionCountAgrees (m : MetricsState) : Prop :=
  ∀ s, m.currentSession = some s → s.sqliteFallbackCount = m.sqliteFallbackCount

lemma sessionCountAgrees_init : sessionCountAgrees init := by
  intro s hs
  exact absurd hs (by simp [init])

lemma sessionCountAgrees_applyMetricsCall (m : MetricsState) (c : MetricsCall)
    (h : sessionCountAgrees m) : sessionCountAgrees (applyMetricsCall m c) := by
  rcases c with now | now | now | now | _ | now | now
  · simp only [applyMetricsCall]
    unfold recordMasterFailure
    by_cases hna : m.noActiveSession = true
    · rw [if_pos hna]
      intro s hs
      simp at hs
      rw [← hs]
    · rw [if_neg hna]
      intro s hs
      simp only at hs
      rcases hm : m.currentSession with _ | s0
      · rw [hm] at hs
        exact absurd hs (by simp)
      · rw [hm, Option.map_some'] at hs
        have := h s0 hm
        simp at hs
        rw [← hs]
        simpa using this
  · simp only [applyMetricsCall]
    unfold recordSentinelPromotion
    by_cases hna : m.noActiveSession = true
    · rw [if_pos hna]
      intro s hs
      simp only [Option.map_some'] at hs
      simp at hs
      rw [← hs]
    · rw [if_neg hna]
      intro s hs
      simp only at hs
      rcases hm : m.currentSession with _ | s0
      · rw [hm] at hs
        exact absurd hs (by simp)
      · rw [hm, Option.map_some'] at hs
        have := h s0 hm
        simp at hs
        rw [← hs]
        simpa using this
  · simp only [applyMetricsCall]
    unfold recordStateTransitionToSqlite
    by_cases hna : m.noActiveSession = true
    · rw [if_pos hna]
      intro s hs
      simp at hs
      rw [← hs]
    · rw [if_neg hna]
      intro s hs
      simp only at hs
      rcases hm : m.currentSession with _ | s0
      · rw [hm] at hs
        exact absurd hs (by simp)
      · rw [hm, Option.map_some'] at hs
        have := h s0 hm
        simp at hs
        rw [← hs]
        simpa using this
  · simp only [applyMetricsCall]
    unfold recordStateTransitionToRedis
    intro s hs
    simp at hs
  · simp only [applyMetricsCall]
    unfold incrementSqliteFallbackCount
    intro s hs
    simp only at hs
    rcases hm : m.currentSession with _ | s0
    · rw [hm] at hs
      exact absurd hs (by simp)
    · rw [hm, Option.map_some'] at hs
      simp at hs
      rw [← hs]
  · simp only [applyMetricsCall]
    unfold recordRecoveryStarted
    by_cases hna : m.noActiveSession = true
    · rw [if_pos hna]
      exact h
    · rw [if_neg hna]
      intro s hs
      simp only at hs
      rcases hm : m.currentSession with _ | s0
      · rw [hm] at hs
        exact absurd hs (by simp)
      · rw [hm, Option.map_some'] at hs
        have := h s0 hm
        simp at hs
        rw [← hs]
        simpa using this
  · simp only [applyMetricsCall]
    unfold recordRecoveryCompleted
    by_cases hna : m.noActiveSession = true
    · rw [if_pos hna]
      exact h
    · rw [if_neg hna]
      intro s hs
      simp only at hs
      rcases hm : m.currentSession with _ | s0
      · rw [hm] at hs
        exact absurd hs (by simp)
      · rw [hm, Option.map_some'] at hs
        have := h s0 hm
        simp at hs
        rw [← hs]
        simpa using this

end MetricsState

namespace MetricsState

lemma activeSession_exists {m : MetricsState} (h : m.noActiveSession = false) :
    ∃ s, m.currentSession = some s ∧ s.isActive = true := by
  unfold noActiveSession at h
  rcases hm : m.currentSession with _ | s
  · rw [hm] at h
    exact absurd h (by simp)
  · rw [hm] at h
    exact ⟨s, rfl, by simpa using h⟩

lemma recordSentinelPromotion_active {m : MetricsState} (now : Int)
    (h : m.noActiveSession = false) :
    (m.recordSentinelPromotion now).noActiveSession = false := by
  unfold recordSentinelPromotion
  rw [h]
  simp only [Bool.false_eq_true, if_false]
  rcases activeSession_exists h with ⟨s, hm, hact⟩
  rw [noActiveSession]
  simp only [hm, Option.map_some']
  simpa using hact

lemma incrementSqliteFallbackCount_active {m : MetricsState}
    (h : m.noActiveSession = false) :
    m.incrementSqliteFallbackCount.noActiveSession = false := by
  unfold incrementSqliteFallbackCount
  rcases activeSession_exists h with ⟨s, hm, hact⟩
  rw [noActiveSession]
  simp only [hm, Option.map_some']
  simpa using hact

lemma recordRecoveryStarted_active {m : MetricsState} (now : Int)
    (h : m.noActiveSession = false) :
    (m.recordRecoveryStarted now).noActiveSession = false := by
  unfold recordRecoveryStarted
  rw [h]
  simp only [Bool.false_eq_true, if_false]
  rcases activeSession_exists h with ⟨s, hm, hact⟩
  rw [noActiveSession]
  simp only [hm, Option.map_some']
  simpa using hact

lemma recordRecoveryCompleted_active {m : MetricsState} (now : Int)
    (h : m.noActiveSession = false) :
    (m.recordRecoveryCompleted now).noActiveSession = false := by
  unfold recordRecoveryCompleted
  rw [h]
  simp only [Bool.false_eq_true, if_false]
  rcases activeSession_exists h with ⟨s, hm, hact⟩
  rw [noActiveSession]
  simp only [hm, Option.map_some']
  simpa using hact

end MetricsState

/-- C8 counterexample: open a session, record one fallback, close the
session with `recordStateTransitionToRedis` — the process-wide fallback
counter reads 1 immediately after the close, not 0. -/
theorem C8_counterexample_count_not_reset :
    (((MetricsState.init.recordMasterFailure
          10).incrementSqliteFallbackCount.recordStateTransitionToRedis
        20).1).getSqliteFallbackCount = 1 ∧
    ¬ (((MetricsState.init.recordMasterFailure
          10).incrementSqliteFallbackCount.recordStateTransitionToRedis
        20).1).getSqliteFallbackCount = 0 := by
  exact ⟨rfl, by decide⟩

open MetricsState in
/-- C8 amended: the tracker holds at most one session (a single optional
field, dropped on close); among the recording operations only
`recordStateTransitionToRedis` closes it; on close the emitted event
reports the accumulated process-wide fallback count (the session copy
agrees with it in every reachable state), but the counter is *not* reset
by the close — a read immediately after returns the accumulated count —
and it is reset to 0 only when `recordMasterFailure` or
`recordStateTransitionToSqlite` opens a fresh session. -/
theorem C8_session_close_reports_count (m : MetricsState) (now : Int)
    (hagree : m.sessionCountAgrees) (hactive : m.noActiveSession = false) :
    ((m.recordStateTransitionToRedis now).1).currentSession = none ∧
    (m.recordStateTransitionToRedis now).2 = m.sqliteFallbackCount ∧
    ((m.recordStateTransitionToRedis now).1).getSqliteFallbackCount =
      m.sqliteFallbackCount ∧
    (∀ c : MetricsCall, (∀ t, c ≠ .toRedis t) →
      (applyMetricsCall m c).noActiveSession = false) ∧
    (∀ m' : MetricsState, m'.noActiveSession = true →
      (m'.recordMasterFailure now).sqliteFallbackCount = 0 ∧
      (m'.recordStateTransitionToSqlite now).sqliteFallbackCount = 0) ∧
    (∀ c : MetricsCall, (applyMetricsCall m c).sessionCountAgrees) := by
  rcases activeSession_exists hactive with ⟨s, hm, _⟩
  refine ⟨?_, ?_, ?_, ?_, ?_, fun c => sessionCountAgrees_applyMetricsCall m c hagree⟩
  · unfold recordStateTransitionToRedis
    rw [hactive]
  · unfold recordStateTransitionToRedis
    rw [hactive]
    simp only [Bool.false_eq_true, if_false, hm]
    exact hagree s hm
  · unfold recordStateTransitionToRedis getSqliteFallbackCount
    rw [hactive]
    simp only [Bool.false_eq_true, if_false]
  · intro c hc
    rcases c with t | t | t | t | _ | t | t
    · exact (recordMasterFailure_active t hactive).2
    · exact recordSentinelPromotion_active t hactive
    · exact (recordStateTransitionToSqlite_active t hactive).2
    · exact absurd rfl (hc t)
    · exact incrementSqliteFallbackCount_active hactive
    · exact recordRecoveryStarted_active t hactive
    · exact recordRecoveryCompleted_active t hactive
  · intro m' hna
    constructor
    · unfold recordMasterFailure
      rw [hna]
      simp only [if_true]
    · unfold recordStateTransitionToSqlite
      rw [hna]
      simp only [if_true]

/-- Witness for C8 amended: after opening a session with one recorded
fallback, the close reports 1. -/
theorem C8_session_close_reports_count_witness :
    ((MetricsState.init.recordMasterFailure
        10).incrementSqliteFallbackCount.recordStateTransitionToRedis 20).2 =
      (MetricsState.init.recordMasterFailure
        10).incrementSqliteFallbackCount.sqliteFallbackCount :=
  (C8_session_close_reports_count
    (MetricsState.init.recordMasterFailure 10).incrementSqliteFallbackCount 20
    (by
      intro s hs
      simp [MetricsState.init, MetricsState.recordMasterFailure,
        MetricsState.incrementSqliteFallbackCount, MetricsState.noActiveSession]
        at hs
      subst hs
      rfl)
    (by decide)).2.1
